import Mathlib

/-!
Verification of the analytics pipeline of `src/backend/app.py`
(`analyze_portfolio`, the only route with non-trivial logic).

Shallow embedding conventions:
* A pandas value that may be `NaN` is modelled as `Option ℚ` (or `Option ℝ`),
  with `none` standing for `NaN` (and for a missing cell).
* A float result that is not a finite number (the `NaN` produced by `0/0`, or
  the infinity produced by dividing a nonzero number by a zero previous price
  in `pct_change`) is likewise modelled as `none`.
* Prices and returns are exact rationals; the only real-valued quantities are
  the ones the source computes with `np.sqrt` (volatility, Sharpe ratio,
  Pearson correlation), kept in `ℝ`.
* `pct_change` is modelled without forward-filling of missing prices
  (`fill_method=None`, the current pandas default): a missing price yields an
  undefined return at its own date and at the following date.
* Python's `round(x, k)` / pandas `.round(k)` is modelled as
  `round (x * 10^k) / 10^k`; the half-even vs half-up tie behaviour is not
  exercised by any theorem below.
-/

namespace PortfolioApp

/-- Valid (non-NaN) observations of a series: pandas' `skipna` view.
Every downstream statistic of `app.py` (std, mean, cov, corr, min) consumes
exactly this sublist. -/
def validObs (l : List (Option ℚ)) : List ℚ := l.filterMap id

/-- Mean of a list of floats as pandas computes it: `NaN` on an empty list.
Models `Series.mean()`. -/
def seriesMean (l : List ℚ) : Option ℚ :=
  if l = [] then none else some (l.sum / l.length)

/-- Sample variance (`ddof = 1`, pandas default for `std`/`var`): `NaN` when
fewer than two observations. `Series.std()` of the source is
`Real.sqrt` of this. -/
def sampleVar (l : List ℚ) : Option ℚ :=
  if l.length < 2 then none
  else some (((l.map (fun x => (x - l.sum / l.length) ^ 2)).sum) / ((l.length : ℚ) - 1))

/-- Sample covariance (`ddof = 1`) of paired observations: `NaN` when fewer
than two pairs. Models `Series.cov(other)` on the already-aligned columns of
`aligned_data`. -/
def sampleCov (ps : List (ℚ × ℚ)) : Option ℚ :=
  if ps.length < 2 then none
  else
    some (((ps.map (fun p =>
        (p.1 - (ps.map Prod.fst).sum / ps.length) *
        (p.2 - (ps.map Prod.snd).sum / ps.length))).sum) / ((ps.length : ℚ) - 1))

/-- Sum of squared deviations from the mean (`0` for the empty list).
The Pearson correlation of `DataFrame.corr()` is
`sxy / sqrt (ssd x * ssd y)`; it is `NaN` exactly when one of the two `ssd`s
is `0` (constant column, a single observation, or no observations). -/
def ssd (l : List ℚ) : ℚ :=
  (l.map (fun x => (x - l.sum / l.length) ^ 2)).sum

/-- Sum of products of deviations for paired observations. -/
def sxy (ps : List (ℚ × ℚ)) : ℚ :=
  (ps.map (fun p =>
    (p.1 - (ps.map Prod.fst).sum / ps.length) *
    (p.2 - (ps.map Prod.snd).sum / ps.length))).sum

/-- Pairwise-complete observations of two columns: the rows where both cells
are valid. `DataFrame.corr()` masks each pair of columns jointly in this way
(and recomputes the means on the masked rows, as `sxy`/`ssd` do). -/
def pairComplete (xs ys : List (Option ℚ)) : List (ℚ × ℚ) :=
  (xs.zip ys).filterMap (fun p =>
    match p with
    | (some a, some b) => some (a, b)
    | _ => none)

/-- Pearson correlation of paired observations, as computed by
`DataFrame.corr()`: `NaN` (here `none`) when either column of the pairwise-
complete sample has zero squared deviation; otherwise
`sxy / sqrt (ssd x * ssd y)`. The `NaN` condition is a decidable rational
test; only the value itself lives in `ℝ`. -/
noncomputable def pearson (ps : List (ℚ × ℚ)) : Option ℝ :=
  if ssd (ps.map Prod.fst) = 0 ∨ ssd (ps.map Prod.snd) = 0 then none
  else some ((sxy ps : ℝ) / Real.sqrt ((ssd (ps.map Prod.fst) : ℝ) * (ssd (ps.map Prod.snd) : ℝ)))

/-- One step of `pct_change`: the simple return `cur / prev - 1`. `none` when
either price is missing, or when `prev = 0` (in floats `x/0` is `inf`/`NaN`,
a non-finite value, modelled as `none`). Note that a ZERO current price with
a valid nonzero previous price yields the perfectly defined return `-1`. -/
def pctStep (prev cur : Option ℚ) : Option ℚ :=
  match prev, cur with
  | some a, some b => if a = 0 then none else some (b / a - 1)
  | _, _ => none

/-- Tail worker for `pctChange`: `prev` is the previous row's price. -/
def pctChangeGo : Option ℚ → List (Option ℚ) → List (Option ℚ)
  | _, [] => []
  | prev, c :: cs => pctStep prev c :: pctChangeGo c cs

/-- `Series.pct_change()` (no fill): the first row has no return; row `i`
gets `price[i] / price[i-1] - 1` when both prices are valid. Models line
`returns = stock_data.pct_change()` of `app.py`, column by column. -/
def pctChange : List (Option ℚ) → List (Option ℚ)
  | [] => []
  | p :: ps => none :: pctChangeGo p ps

/-- Row-wise mean with pandas' `skipna=True`: the mean of the valid entries,
`NaN` when every entry is `NaN`. Models `returns.mean(axis=1)` at one row. -/
def rowMean (row : List (Option ℚ)) : Option ℚ :=
  seriesMean (validObs row)

/-- The canonical price table after column extraction: dates (ascending
trading days), column labels, and a price column per label. Models the
`stock_data` DataFrame of `app.py`. -/
structure StockData where
  dates : List ℕ
  symbols : List String
  col : String → List (Option ℚ)

/-- Per-symbol return columns of `stock_data.pct_change()`. -/
def retCol (sd : StockData) (s : String) : List (Option ℚ) :=
  pctChange (sd.col s)

/-- Equal-weighted portfolio return series: at each row, the NaN-skipping
mean across the requested symbols' return columns. Models
`portfolio_returns = returns.mean(axis=1)` of `app.py`. -/
def portSeries (sd : StockData) : List (Option ℚ) :=
  (List.range sd.dates.length).map (fun i =>
    rowMean (sd.symbols.map (fun s => (retCol sd s).getD i none)))

/-- Value of a date-keyed series at date `d` (`none` when the date is absent
or its value is `NaN`). -/
def lookupDate (dates : List ℕ) (vals : List (Option ℚ)) (d : ℕ) : Option ℚ :=
  match (dates.zip vals).lookup d with
  | some v => v
  | none => none

/-- The aligned portfolio/benchmark return pairs: the rows of
`pd.DataFrame({'portfolio': ..., 'sp500': ...}).dropna()` of `app.py` — the
dates carrying a valid portfolio return AND a valid benchmark return.
(Dates present only on the benchmark side have a `NaN` portfolio value in the
joined frame and are likewise dropped, so iterating the stock dates is
exact.) -/
def alignedPairs (sd : StockData) (spDates : List ℕ) (spPrices : List (Option ℚ)) :
    List (ℚ × ℚ) :=
  ((sd.dates).zip (portSeries sd)).filterMap (fun dp =>
    match dp.2, lookupDate spDates (pctChange spPrices) dp.1 with
    | some a, some b => some (a, b)
    | _, _ => none)

/-- Annualized return: `mean * 252`. Models
`portfolio_return = aligned_data['portfolio'].mean() * 252`. -/
def annualizedReturn (l : List ℚ) : Option ℚ :=
  (seriesMean l).map (fun m => m * 252)

/-- Annualized volatility: `std * sqrt 252`, i.e.
`sqrt (sampleVar) * sqrt 252`; `NaN` when the sample std is undefined.
Models `.std() * np.sqrt(252)`. -/
noncomputable def annualizedVol (l : List ℚ) : Option ℝ :=
  (sampleVar l).map (fun v : ℚ => Real.sqrt (v : ℝ) * Real.sqrt 252)

/-- Sharpe ratio of the source:
`portfolio_return / portfolio_volatility if portfolio_volatility != 0 else 0`.
A `NaN` volatility passes the `!= 0` test and the division then yields `NaN`,
which the `none => none` branch captures. -/
noncomputable def sharpe (l : List ℚ) : Option ℝ :=
  match seriesMean l, annualizedVol l with
  | some m, some pv => if pv = 0 then some 0 else some (((m * 252 : ℚ) : ℝ) / pv)
  | _, _ => none

/-- Beta of the source:
`covariance / sp500_variance if sp500_variance != 0 else 0`.
A `NaN` variance passes the `!= 0` test and the division yields `NaN`. -/
def betaOf (ps : List (ℚ × ℚ)) : Option ℚ :=
  match sampleVar (ps.map Prod.snd) with
  | none => none
  | some v => if v = 0 then some 0 else (sampleCov ps).map (fun c => c / v)

/-- Cumulative growth series from a fixed start value `c`:
`c, c*(1+r₀), c*(1+r₀)*(1+r₁), ...` (the list is never empty). -/
def cumGo (c : ℚ) : List ℚ → List ℚ
  | [] => [c]
  | r :: rs => c :: cumGo (c * (1 + r)) rs

/-- `(1 + aligned_data['portfolio']).cumprod()` of `app.py`. -/
def cumSeries : List ℚ → List ℚ
  | [] => []
  | r :: rs => cumGo (1 + r) rs

/-- Drawdown worker: `c` is the current cumulative value, `m` the running
maximum (`cummax`) including `c`. Emits
`(cum - running_max) / running_max` per row; `none` when the running maximum
is `0` (float `0/0 = NaN`). -/
def ddGo (c m : ℚ) : List ℚ → List (Option ℚ)
  | [] => [if m = 0 then none else some ((c - m) / m)]
  | r :: rs =>
      (if m = 0 then none else some ((c - m) / m)) ::
        ddGo (c * (1 + r)) (max m (c * (1 + r))) rs

/-- The full drawdown series
`(cumulative_returns - running_max) / running_max` of `app.py`. -/
def drawdowns : List ℚ → List (Option ℚ)
  | [] => []
  | r :: rs => ddGo (1 + r) (1 + r) rs

/-- `Series.min()` with pandas' `skipna=True`: minimum of the valid entries,
`NaN` when there are none. -/
def seriesMin (l : List ℚ) : Option ℚ :=
  match l with
  | [] => none
  | x :: xs => some (xs.foldl min x)

/-- `max_drawdown = drawdown.min()` of `app.py`. -/
def maxDrawdown (l : List ℚ) : Option ℚ :=
  seriesMin (validObs (drawdowns l))

/-- Boolean "non-decreasing throughout" test for a series. -/
def nondecrB : List ℚ → Bool
  | [] => true
  | [_] => true
  | x :: y :: rest => decide (x ≤ y) && nondecrB (y :: rest)

/-- Trailing 50-row moving average, last row only:
`stock_data.rolling(window=50).mean().iloc[-1]`. With the default
`min_periods = 50` this is `NaN` unless the trailing 50-row window exists and
holds 50 valid prices. -/
def ma50 (col : List (Option ℚ)) : Option ℚ :=
  let v := validObs (col.drop (col.length - 50))
  if v.length < 50 then none else some (v.sum / v.length)

/-- Python `round(x, k)` on exact rationals (tie behaviour aside, see the
file header). -/
def roundQ (k : ℕ) (x : ℚ) : ℚ := (round (x * 10 ^ k) : ℤ) / 10 ^ k

/-- Python `round(x, k)` on reals. `round(NaN, k)` is `NaN`, which
`Option.map` preserves. -/
noncomputable def roundR (k : ℕ) (x : ℝ) : ℝ := ((round (x * 10 ^ k) : ℤ) : ℝ) / 10 ^ k

/-- A JSON-serialized numeric cell of the response. `flask.jsonify` renders a
float `NaN` as a bare `NaN` token — the key is NOT dropped and the value is
NOT `null` — so the serialized form of an `Option` value keeps an explicit
`nan` constructor. -/
inductive RVal where
  | nan : RVal
  | num : ℝ → RVal

/-- Serialization of a possibly-NaN real cell. -/
def toRVal : Option ℝ → RVal
  | none => RVal.nan
  | some x => RVal.num x

/-- Serialization of a possibly-NaN rational cell. -/
def toRValQ : Option ℚ → RVal
  | none => RVal.nan
  | some q => RVal.num (q : ℝ)

/-- The `portfolio_metrics` block of the response. -/
structure Metrics where
  sharpeRatio : RVal
  betaVal : RVal
  maxDrawdownVal : RVal
  annualizedRet : RVal
  annualizedVolVal : RVal

/-- The success response of `analyze_portfolio`. The per-symbol dicts
(`correlation`, `volatility`, `current_prices`, `ma_50`) all have exactly the
column labels of `stock_data` as keys, recorded once in `symbols`; the
functions give each key's value. -/
structure Response where
  symbols : List String
  corr : String → String → RVal
  volatility : String → RVal
  currentPrices : String → RVal
  ma50Val : String → RVal
  metrics : Metrics
  tickers : List String

/-- The response assembly of `app.py` lines 61–131: correlation of the PRICE
columns (`stock_data.corr()`), per-symbol annualized volatility of the return
columns, last prices, 50-day moving averages, and the portfolio metrics from
the aligned portfolio/benchmark return series. -/
noncomputable def buildResponse (sd : StockData) (spDates : List ℕ)
    (spPrices : List (Option ℚ)) (tickers : List String) : Response :=
  let al := alignedPairs sd spDates spPrices
  let port := al.map Prod.fst
  { symbols := sd.symbols
    corr := fun s t =>
      toRVal ((pearson (pairComplete (sd.col s) (sd.col t))).map (roundR 3))
    volatility := fun s =>
      toRVal ((annualizedVol (validObs (retCol sd s))).map (roundR 4))
    currentPrices := fun s =>
      toRValQ (((sd.col s).getLastD none).map (roundQ 2))
    ma50Val := fun s => toRValQ ((ma50 (sd.col s)).map (roundQ 2))
    metrics :=
      { sharpeRatio := toRVal ((sharpe port).map (roundR 3))
        betaVal := toRValQ ((betaOf al).map (roundQ 3))
        maxDrawdownVal := toRValQ ((maxDrawdown port).map (roundQ 4))
        annualizedRet := toRValQ ((annualizedReturn port).map (roundQ 4))
        annualizedVolVal := toRVal ((annualizedVol port).map (roundR 4)) }
    tickers := tickers }

/-- Raw provider table as returned by the market-data download: either a
two-level (field, symbol) column layout (`multiIndex = true`, as the provider
actually produces for a list of tickers) or a flat field-per-column layout.
`val f s` is the column of field `f` for symbol `s` (the symbol argument is
ignored in flat layout, where the caller passes `""`). -/
structure RawTable where
  multiIndex : Bool
  fields : List String
  symbols : List String
  dates : List ℕ
  val : String → String → List (Option ℚ)

/-- Column extraction of `app.py` lines 33–47: prefer `"Close"`, fall back to
`"Adj Close"`, otherwise leave `stock_data = None`. In the flat layout with a
single requested ticker the column is relabelled to that ticker. (The flat
layout with several tickers would make `stock_data` a Series and crash
further down in the source; the provider never produces it and no theorem
uses that branch; it is modelled as a single generic column.) -/
def extract (tickers : List String) (raw : RawTable) : Option StockData :=
  if raw.multiIndex then
    if "Close" ∈ raw.fields then
      some ⟨raw.dates, raw.symbols, fun s => raw.val "Close" s⟩
    else if "Adj Close" ∈ raw.fields then
      some ⟨raw.dates, raw.symbols, fun s => raw.val "Adj Close" s⟩
    else none
  else
    if "Close" ∈ raw.fields then
      if tickers.length = 1 then
        some ⟨raw.dates, tickers, fun s =>
          if s = tickers.headD "" then raw.val "Close" "" else []⟩
      else some ⟨raw.dates, ["Close"], fun s =>
          if s = "Close" then raw.val "Close" "" else []⟩
    else if "Adj Close" ∈ raw.fields then
      if tickers.length = 1 then
        some ⟨raw.dates, tickers, fun s =>
          if s = tickers.headD "" then raw.val "Adj Close" "" else []⟩
      else some ⟨raw.dates, ["Adj Close"], fun s =>
          if s = "Adj Close" then raw.val "Adj Close" "" else []⟩
    else none

/-- Benchmark extraction of `app.py` lines 79–92 (a separate branch in the
source): `Close`, else `Adj Close`, else — in the flat layout only — the
first column (`iloc[:, 0]`). In the two-level layout with neither field the
variable `sp500_prices` is never assigned and the later use raises
(`none` here). -/
def extractSp (raw : RawTable) : Option (List ℕ × List (Option ℚ)) :=
  if raw.multiIndex then
    if "Close" ∈ raw.fields then
      some (raw.dates, raw.val "Close" (raw.symbols.headD ""))
    else if "Adj Close" ∈ raw.fields then
      some (raw.dates, raw.val "Adj Close" (raw.symbols.headD ""))
    else none
  else
    if "Close" ∈ raw.fields then some (raw.dates, raw.val "Close" "")
    else if "Adj Close" ∈ raw.fields then some (raw.dates, raw.val "Adj Close" "")
    else some (raw.dates, raw.val (raw.fields.headD "") "")

/-- The error responses the route can produce, by their literal messages:
`noTickers` = `'No tickers provided'` (400, before any download);
`couldNotExtract` = `'Could not extract price data from yfinance response'`
(500, one single message for BOTH a missing close field and an empty table);
`needTwoTickers` = `'Need at least 2 tickers for correlation analysis'`
(400, after the download);
`exception` = the generic `str(e)` 500 handler. -/
inductive ApiError where
  | noTickers : ApiError
  | couldNotExtract : ApiError
  | needTwoTickers : ApiError
  | exception : ApiError
deriving DecidableEq

/-- The full `analyze_portfolio` control flow. The second component counts
the provider downloads performed before returning (`yf.download` calls): the
empty-tickers check alone happens before the first download; the
less-than-two-tickers check happens AFTER the first download; the benchmark
download is the second. -/
noncomputable def analyze (tickers : List String) (raw sp500raw : RawTable) :
    Except ApiError Response × ℕ :=
  if tickers = [] then (Except.error ApiError.noTickers, 0)
  else
    match extract tickers raw with
    | none => (Except.error ApiError.couldNotExtract, 1)
    | some sd =>
      if sd.dates = [] ∨ sd.symbols = [] then (Except.error ApiError.couldNotExtract, 1)
      else if tickers.length = 1 then (Except.error ApiError.needTwoTickers, 1)
      else
        match extractSp sp500raw with
        | none => (Except.error ApiError.exception, 2)
        | some sp => (Except.ok (buildResponse sd sp.1 sp.2 tickers), 2)

/-! ### Concrete fixtures used by the witnesses and counterexamples -/

/-- Two symbols over three dates; `B` has a missing price at the last row. -/
def sdMissB : StockData :=
  ⟨[10, 11, 12], ["A", "B"], fun s =>
    if s = "A" then [some 100, some 102, some 103] else [some 50, some 49, none]⟩

/-- Two linear/convex price columns over three dates (all prices valid). -/
def sdGrow : StockData :=
  ⟨[10, 11, 12], ["A", "B"], fun s =>
    if s = "A" then [some 1, some 2, some 3] else [some 1, some 2, some 4]⟩

/-- Symbol `A` has the constant price `2`; `B` moves. -/
def sdConstA : StockData :=
  ⟨[10, 11, 12], ["A", "B"], fun s =>
    if s = "A" then List.replicate 3 (some 2) else [some 1, some 2, some 4]⟩

/-- Symbol `A` has the constant price `2` over only TWO rows (a single valid
return observation); `B` moves. -/
def sdConst2 : StockData :=
  ⟨[10, 11], ["A", "B"], fun s =>
    if s = "A" then List.replicate 2 (some 2) else [some 1, some 2]⟩

/-- A well-formed two-level provider table with a `Close` field, two symbols
and three rows. -/
def rawTwo : RawTable :=
  ⟨true, ["Close"], ["A", "B"], [10, 11, 12], fun _ _ => [some 1, some 2, some 3]⟩

/-- A well-formed two-level provider table for a single requested ticker. -/
def rawOne : RawTable :=
  ⟨true, ["Close"], ["AAPL"], [10, 11], fun _ _ => [some 1, some 2]⟩

/-- A two-level provider table with neither `Close` nor `Adj Close`. -/
def rawNoField : RawTable :=
  ⟨true, ["Open", "High"], ["A", "B"], [10, 11], fun _ _ => [some 1, some 2]⟩

/-- A two-level provider table with a `Close` field but zero rows. -/
def rawEmptyRows : RawTable :=
  ⟨true, ["Close"], ["A", "B"], [], fun _ _ => []⟩

/-- A minimal flat benchmark table with a `Close` column. -/
def rawSpFlat : RawTable :=
  ⟨false, ["Close"], [], [10], fun _ _ => [some 1]⟩

end PortfolioApp

namespace PortfolioApp

/-! ### Helper lemmas -/

theorem validObs_append (l1 l2 : List (Option ℚ)) :
    validObs (l1 ++ l2) = validObs l1 ++ validObs l2 := by
  simp [validObs, List.filterMap_append]

theorem validObs_cons_none (l : List (Option ℚ)) :
    validObs (none :: l) = validObs l := by
  simp [validObs]

theorem mem_validObs {l : List (Option ℚ)} {x : ℚ} :
    x ∈ validObs l ↔ some x ∈ l := by
  simp [validObs, List.mem_filterMap]

theorem validObs_eq_nil_iff {l : List (Option ℚ)} :
    validObs l = [] ↔ ∀ x ∈ l, x = none := by
  simp [validObs, List.filterMap_eq_nil_iff, Option.isSome_iff_ne_none]

theorem validObs_map_some (vs : List ℚ) : validObs (vs.map some) = vs := by
  simp [validObs, List.filterMap_map]

theorem seriesMean_of_ne_nil {l : List ℚ} (h : l ≠ []) :
    seriesMean l = some (l.sum / l.length) := by
  simp [seriesMean, h]

theorem pctChangeGo_length (p : Option ℚ) (l : List (Option ℚ)) :
    (pctChangeGo p l).length = l.length := by
  induction l generalizing p with
  | nil => rfl
  | cons c cs ih => simp [pctChangeGo, ih]

theorem pctChange_length (l : List (Option ℚ)) :
    (pctChange l).length = l.length := by
  cases l with
  | nil => rfl
  | cons p ps => simp [pctChange, pctChangeGo_length]

theorem pctStep_none_right (p : Option ℚ) : pctStep p none = none := by
  cases p <;> rfl

theorem pctStep_none_left (c : Option ℚ) : pctStep none c = none := by
  cases c <;> rfl

theorem pctChangeGo_getD (l : List (Option ℚ)) :
    ∀ (p : Option ℚ) (i : ℕ), i < l.length →
      (pctChangeGo p l).getD i none = pctStep ((p :: l).getD i none) (l.getD i none) := by
  induction l with
  | nil => intro p i hi; cases hi
  | cons c cs ih =>
    intro p i hi
    cases i with
    | zero => rfl
    | succ j =>
      have hj : j < cs.length := by simpa using hi
      simpa [pctChangeGo] using ih c j hj

theorem pctChange_getD_zero (l : List (Option ℚ)) :
    (pctChange l).getD 0 none = none := by
  cases l <;> rfl

theorem pctChange_getD_succ (l : List (Option ℚ)) (i : ℕ) (hi : i + 1 < l.length) :
    (pctChange l).getD (i + 1) none = pctStep (l.getD i none) (l.getD (i + 1) none) := by
  cases l with
  | nil => cases hi
  | cons p ps =>
    have hj : i < ps.length := by simpa using hi
    simpa [pctChange] using pctChangeGo_getD ps p i hj

theorem portSeries_getD (sd : StockData) (i : ℕ) (hi : i < sd.dates.length) :
    (portSeries sd).getD i none
      = rowMean (sd.symbols.map (fun s => (retCol sd s).getD i none)) := by
  rw [portSeries, List.getD_eq_getElem?_getD, List.getElem?_map, List.getElem?_range hi]
  rfl

end PortfolioApp

namespace PortfolioApp

/-! ### C2 — equal-weighted portfolio series -/

/-- C2 (amended): the equal-weighted portfolio return at a row is the
arithmetic mean of the VALID returns among the requested symbols at that row
(`returns.mean(axis=1)` skips `NaN`): when every symbol has a valid return it
is the mean of all of them, but a row is `NaN` (and hence dropped later) only
when EVERY symbol's return is missing — a row missing a return for just one
symbol stays in the portfolio series with the mean of the remaining
symbols. -/
theorem c2_portfolio_mean (sd : StockData) (h2 : 2 ≤ sd.symbols.length)
    (i : ℕ) (hi : i < sd.dates.length) :
    ((portSeries sd).getD i none
        = rowMean (sd.symbols.map (fun s => (retCol sd s).getD i none))) ∧
    (∀ vs : List ℚ,
        sd.symbols.map (fun s => (retCol sd s).getD i none) = vs.map some →
        (portSeries sd).getD i none = some (vs.sum / vs.length)) ∧
    ((∀ s ∈ sd.symbols, (retCol sd s).getD i none = none) →
        (portSeries sd).getD i none = none) := by
  refine ⟨portSeries_getD sd i hi, ?_, ?_⟩
  · intro vs hvs
    have hne : vs ≠ [] := by
      intro hnil
      subst hnil
      simp only [List.map_nil] at hvs
      rw [List.map_eq_nil_iff.mp hvs] at h2
      simp at h2
    rw [portSeries_getD sd i hi, hvs, rowMean, validObs_map_some,
      seriesMean_of_ne_nil hne]
  · intro hall
    rw [portSeries_getD sd i hi, rowMean]
    have hnil : validObs (sd.symbols.map (fun s => (retCol sd s).getD i none)) = [] := by
      rw [validObs_eq_nil_iff]
      intro x hx
      rcases List.mem_map.mp hx with ⟨s, hs, rfl⟩
      exact hall s hs
    rw [hnil]
    rfl

/-- C2 witness: on the concrete two-symbol table `sdGrow`, row 0 (where both
return columns are `NaN`) gives a `NaN` portfolio return, via
`c2_portfolio_mean`. -/
theorem c2_portfolio_mean_witness :
    (portSeries sdGrow).getD 0 none = none :=
  (c2_portfolio_mean _ (by decide) 0 (by decide)).2.2
    (fun s _ => pctChange_getD_zero _)

/-- C2 counterexample: symbol `B` has a missing price at the last row, so its
return there is undefined; the claim says that row is then dropped from the
portfolio series entirely, but the code keeps it with the mean of the
remaining symbol: the portfolio value at row 2 is `some (1/102)` (`A`'s
return alone), not `none`. -/
theorem c2_counterexample :
    (portSeries sdMissB).getD 2 none = some (1 / 102) ∧
    (retCol sdMissB "B").getD 2 none = none := by
  have hB : (retCol sdMissB "B").getD 2 none = none := by
    rw [retCol, show sdMissB.col "B" = [some 50, some 49, none] from by decide]
    simp [pctChange, pctChangeGo, pctStep]
  have hA : (retCol sdMissB "A").getD 2 none = some (1 / 102) := by
    rw [retCol, show sdMissB.col "A" = [some 100, some 102, some 103] from by decide]
    norm_num [pctChange, pctChangeGo, pctStep]
  refine ⟨?_, hB⟩
  rw [portSeries_getD _ 2 (by decide),
    show sdMissB.symbols = ["A", "B"] from rfl]
  simp only [List.map_cons, List.map_nil]
  rw [hA, hB, rowMean]
  norm_num [validObs, seriesMean, List.filterMap_cons, List.filterMap_nil]

/-! ### C3 — undefined returns -/

/-- C3 (amended): in the return series built by `pct_change` (no fill): the
first row's return is undefined; a MISSING price makes the return undefined
at that row and at the following row; but a ZERO price with a valid nonzero
previous price yields the DEFINED return `-1` at its own row (it is the
following row whose return is then non-finite/undefined); and the statistics
that consume returns skip undefined entries rather than treating them as
zero (dropping a `NaN` entry changes neither the valid-observation list, nor
the row mean feeding the portfolio series, nor the annualized volatility). -/
theorem c3_undefined_returns (l : List (Option ℚ)) :
    ((pctChange l).getD 0 none = none) ∧
    (∀ i, i < l.length → l.getD i none = none →
        (pctChange l).getD i none = none ∧
        (i + 1 < l.length → (pctChange l).getD (i + 1) none = none)) ∧
    (∀ i, i + 1 < l.length → l.getD i none = some 0 →
        (pctChange l).getD (i + 1) none = none) ∧
    (∀ i a, i + 1 < l.length → l.getD i none = some a → a ≠ 0 →
        l.getD (i + 1) none = some 0 →
        (pctChange l).getD (i + 1) none = some (-1)) ∧
    (∀ l1 l2 : List (Option ℚ), validObs (l1 ++ none :: l2) = validObs (l1 ++ l2)) ∧
    (∀ r1 r2 : List (Option ℚ), rowMean (r1 ++ none :: r2) = rowMean (r1 ++ r2)) ∧
    (∀ r1 r2 : List (Option ℚ),
        annualizedVol (validObs (r1 ++ none :: r2)) = annualizedVol (validObs (r1 ++ r2))) := by
  have hskip : ∀ l1 l2 : List (Option ℚ), validObs (l1 ++ none :: l2) = validObs (l1 ++ l2) := by
    intro l1 l2
    rw [validObs_append, validObs_append, validObs_cons_none]
  refine ⟨pctChange_getD_zero l, ?_, ?_, ?_, hskip, ?_, ?_⟩
  · intro i hi hnone
    constructor
    · cases i with
      | zero => exact pctChange_getD_zero l
      | succ j =>
        rw [pctChange_getD_succ l j hi, hnone, pctStep_none_right]
    · intro hi1
      rw [pctChange_getD_succ l i hi1, hnone, pctStep_none_left]
  · intro i hi1 hzero
    rw [pctChange_getD_succ l i hi1, hzero]
    cases l.getD (i + 1) none <;> simp [pctStep]
  · intro i a hi1 hprev ha hcur
    rw [pctChange_getD_succ l i hi1, hprev, hcur, pctStep, if_neg ha]
    norm_num
  · intro r1 r2
    rw [rowMean, rowMean, hskip]
  · intro r1 r2
    rw [hskip]

/-- C3 witness: on the column `[some 2, none, some 4]` the missing middle
price makes both the middle return and the following return undefined, via
`c3_undefined_returns`. -/
theorem c3_undefined_returns_witness :
    (pctChange [some 2, none, some 4]).getD 1 none = none ∧
    (pctChange [some 2, none, some 4]).getD 2 none = none := by
  have h := (c3_undefined_returns [some 2, none, some 4]).2.1 1 (by decide) (by decide)
  exact ⟨h.1, h.2 (by decide)⟩

/-- C3 counterexample: the claim says a date whose price is ZERO has an
undefined return; but on prices `[100, 0]` the code computes the perfectly
defined return `0/100 - 1 = -1` at the zero-price date. -/
theorem c3_counterexample :
    pctChange [some 100, some 0] = [none, some (-1)] := by
  norm_num [pctChange, pctChangeGo, pctStep]

end PortfolioApp

namespace PortfolioApp

/-! ### C4 — request validation -/

/-- C4 (amended): the empty-symbol-list check is the only one performed
before any download: an empty request fails with the no-tickers error and
zero downloads; but a single-symbol request is only rejected AFTER the first
download and extraction succeed (download counter `1`, not `0`), with the
need-two-tickers error. -/
theorem c4_validation_order :
    (∀ raw sp : RawTable, analyze [] raw sp = (Except.error ApiError.noTickers, 0)) ∧
    (∀ (s : String) (raw sp : RawTable) (sd : StockData),
        extract [s] raw = some sd → sd.dates ≠ [] → sd.symbols ≠ [] →
        analyze [s] raw sp = (Except.error ApiError.needTwoTickers, 1)) := by
  constructor
  · intro raw sp
    simp [analyze]
  · intro s raw sp sd hx hd hs
    simp [analyze, hx, hd, hs]

/-- C4 witness: a concrete single-ticker request against a well-formed table
is rejected with the need-two-tickers error after one download, via
`c4_validation_order`. -/
theorem c4_validation_order_witness :
    analyze ["MSFT"] rawOne rawSpFlat = (Except.error ApiError.needTwoTickers, 1) :=
  c4_validation_order.2 "MSFT" rawOne rawSpFlat
    ⟨rawOne.dates, rawOne.symbols, fun s => rawOne.val "Close" s⟩
    rfl (by decide) (by decide)

/-- C4 counterexample: the claim says a single-symbol request fails BEFORE
any data is fetched; but on a concrete single-ticker request the code
performs one provider download (second component `1`, not `0`) before
returning the need-two-tickers error. -/
theorem c4_counterexample :
    analyze ["AAPL"] rawOne rawSpFlat = (Except.error ApiError.needTwoTickers, 1) := by
  simp [analyze, extract, rawOne]

/-! ### C8 — normalizer field selection and failures -/

/-- C8 (amended): column selection prefers `"Close"` and falls back to
`"Adj Close"` in both layouts, and a table with neither field leaves
`stock_data` unset; but the source then reports ONE single generic error
(`'Could not extract price data from yfinance response'`) for BOTH failure
conditions — `stock_data is None` (no recognized field) and
`stock_data.empty` (zero rows) — not two distinct typed failures. -/
theorem c8_normalizer :
    (∀ (t : List String) (raw : RawTable), raw.multiIndex = true →
        "Close" ∈ raw.fields →
        extract t raw = some ⟨raw.dates, raw.symbols, fun s => raw.val "Close" s⟩) ∧
    (∀ (t : List String) (raw : RawTable), raw.multiIndex = true →
        "Close" ∉ raw.fields → "Adj Close" ∈ raw.fields →
        extract t raw = some ⟨raw.dates, raw.symbols, fun s => raw.val "Adj Close" s⟩) ∧
    (∀ (t : List String) (raw : RawTable), raw.multiIndex = true →
        "Close" ∉ raw.fields → "Adj Close" ∉ raw.fields →
        extract t raw = none) ∧
    (∀ (t : List String) (raw : RawTable), raw.multiIndex = false →
        "Close" ∉ raw.fields → "Adj Close" ∉ raw.fields →
        extract t raw = none) ∧
    (∀ (t : List String) (raw sp : RawTable), t ≠ [] →
        extract t raw = none →
        analyze t raw sp = (Except.error ApiError.couldNotExtract, 1)) ∧
    (∀ (t : List String) (raw sp : RawTable) (sd : StockData), t ≠ [] →
        extract t raw = some sd → sd.dates = [] →
        analyze t raw sp = (Except.error ApiError.couldNotExtract, 1)) := by
  refine ⟨?_, ?_, ?_, ?_, ?_, ?_⟩
  · intro t raw hmi hcl
    simp [extract, hmi, hcl]
  · intro t raw hmi hncl hacl
    simp [extract, hmi, hncl, hacl]
  · intro t raw hmi hncl hnacl
    simp [extract, hmi, hncl, hnacl]
  · intro t raw hmi hncl hnacl
    simp [extract, hmi, hncl, hnacl]
  · intro t raw sp htne hx
    simp [analyze, htne, hx]
  · intro t raw sp sd htne hx hd
    simp [analyze, htne, hx, hd]

/-- C8 witness: on concrete tables, `Close` is selected from the two-level
layout, and a fieldless table is rejected, via `c8_normalizer`. -/
theorem c8_normalizer_witness :
    extract ["A", "B"] rawTwo
      = some ⟨rawTwo.dates, rawTwo.symbols, fun s => rawTwo.val "Close" s⟩ ∧
    analyze ["A", "B"] rawNoField rawSpFlat
      = (Except.error ApiError.couldNotExtract, 1) :=
  ⟨c8_normalizer.1 ["A", "B"] rawTwo rfl (by decide),
   c8_normalizer.2.2.2.2.1 ["A", "B"] rawNoField rawSpFlat (by decide)
     (c8_normalizer.2.2.1 ["A", "B"] rawNoField rfl (by decide) (by decide))⟩

/-- C8 counterexample: the claim says a table with no recognized price field
yields a `DataShapeError` while a zero-row table yields a DISTINCT
`EmptyDataError`; but the code returns the SAME single generic error (the
`'Could not extract price data from yfinance response'` 500 response) in
both situations. -/
theorem c8_counterexample :
    analyze ["A", "B"] rawNoField rawSpFlat
      = (Except.error ApiError.couldNotExtract, 1) ∧
    analyze ["A", "B"] rawEmptyRows rawSpFlat
      = (Except.error ApiError.couldNotExtract, 1) := by
  constructor
  · simp [analyze, extract, rawNoField]
  · simp [analyze, extract, rawEmptyRows]

/-! ### C9 — per-symbol response keys -/

/-- C9 (confirmed): on a successful request whose provider table carries
exactly the requested tickers as its symbol level, every per-symbol map of
the response is keyed by exactly those tickers (the response's `symbols` key
list), the `tickers` echo is the request, and the benchmark symbol `^GSPC` —
fetched by a separate download — is never one of the keys. -/
theorem c9_response_keys (tickers : List String) (raw sp : RawTable)
    (spd : List ℕ) (spv : List (Option ℚ))
    (hmi : raw.multiIndex = true) (hcl : "Close" ∈ raw.fields)
    (hsym : raw.symbols = tickers) (hne : raw.dates ≠ []) (h2 : 2 ≤ tickers.length)
    (hsp : extractSp sp = some (spd, spv)) :
    ∃ resp : Response,
      analyze tickers raw sp = (Except.ok resp, 2) ∧
      resp.symbols = tickers ∧ resp.tickers = tickers ∧
      ("^GSPC" ∉ tickers → "^GSPC" ∉ resp.symbols) := by
  have htne : tickers ≠ [] := by
    intro h
    rw [h] at h2
    simp at h2
  have hlen : ¬ tickers.length = 1 := by omega
  have hx : extract tickers raw
      = some ⟨raw.dates, raw.symbols, fun s => raw.val "Close" s⟩ := by
    simp [extract, hmi, hcl]
  have hsne : raw.symbols ≠ [] := by
    rw [hsym]
    exact htne
  refine ⟨buildResponse ⟨raw.dates, raw.symbols, fun s => raw.val "Close" s⟩ spd spv tickers,
    ?_, ?_, ?_, ?_⟩
  · simp [analyze, htne, hx, hne, hsne, hlen, hsp]
  · simpa [buildResponse] using hsym
  · simp [buildResponse]
  · intro h
    have : (buildResponse ⟨raw.dates, raw.symbols, fun s => raw.val "Close" s⟩
        spd spv tickers).symbols = tickers := by simpa [buildResponse] using hsym
    rw [this]
    exact h

/-- C9 witness: a concrete successful two-ticker request keyed by
`["A", "B"]`, via `c9_response_keys`. -/
theorem c9_response_keys_witness :
    ∃ resp : Response,
      analyze ["A", "B"] rawTwo rawSpFlat = (Except.ok resp, 2) ∧
      resp.symbols = ["A", "B"] ∧ resp.tickers = ["A", "B"] ∧
      ("^GSPC" ∉ ["A", "B"] → "^GSPC" ∉ resp.symbols) :=
  c9_response_keys ["A", "B"] rawTwo rawSpFlat [10] [some 1]
    rfl (by decide) rfl (by decide) (by decide) rfl

end PortfolioApp

namespace PortfolioApp

/-! ### More helper lemmas (statistics) -/

theorem sampleVar_of_two_le {l : List ℚ} (h : 2 ≤ l.length) :
    sampleVar l
      = some (((l.map (fun x => (x - l.sum / l.length) ^ 2)).sum) / ((l.length : ℚ) - 1)) := by
  rw [sampleVar, if_neg (by omega)]

theorem sampleCov_of_two_le {ps : List (ℚ × ℚ)} (h : 2 ≤ ps.length) :
    sampleCov ps
      = some (((ps.map (fun p =>
          (p.1 - (ps.map Prod.fst).sum / ps.length) *
          (p.2 - (ps.map Prod.snd).sum / ps.length))).sum) / ((ps.length : ℚ) - 1)) := by
  rw [sampleCov, if_neg (by omega)]

theorem lookupDate_nil (vals : List (Option ℚ)) (d : ℕ) :
    lookupDate [] vals d = none := rfl

theorem alignedPairs_empty_bench (sd : StockData) (spv : List (Option ℚ)) :
    alignedPairs sd [] spv = [] := by
  rw [alignedPairs, List.filterMap_eq_nil_iff]
  intro dp _
  rw [lookupDate_nil]
  cases dp.2 <;> rfl

/-! ### C5 — Sharpe ratio and beta zero-denominator policy -/

/-- C5 (confirmed): on an aligned portfolio/benchmark series with at least
two observations, the Sharpe ratio is exactly `0` when the annualized
volatility is `0` and is annualized return over annualized volatility
otherwise; the beta is exactly `0` when the benchmark sample variance is `0`
and is covariance over variance otherwise; and both are defined values (no
division error is raised — the `isSome` conjuncts). -/
theorem c5_sharpe_beta (al : List (ℚ × ℚ)) (h2 : 2 ≤ al.length) :
    ((annualizedVol (al.map Prod.fst) = some 0 → sharpe (al.map Prod.fst) = some 0) ∧
     (∀ pv : ℝ, annualizedVol (al.map Prod.fst) = some pv → pv ≠ 0 →
        ∀ m : ℚ, seriesMean (al.map Prod.fst) = some m →
          sharpe (al.map Prod.fst) = some (((m * 252 : ℚ) : ℝ) / pv)) ∧
     (sharpe (al.map Prod.fst)).isSome = true) ∧
    ((sampleVar (al.map Prod.snd) = some 0 → betaOf al = some 0) ∧
     (∀ v : ℚ, sampleVar (al.map Prod.snd) = some v → v ≠ 0 →
        ∀ c : ℚ, sampleCov al = some c → betaOf al = some (c / v)) ∧
     (betaOf al).isSome = true) := by
  have hlenf : 2 ≤ (al.map Prod.fst).length := by simpa using h2
  have hlens : 2 ≤ (al.map Prod.snd).length := by simpa using h2
  have hnef : al.map Prod.fst ≠ [] := by
    intro h
    rw [h] at hlenf
    simp at hlenf
  have hm := seriesMean_of_ne_nil hnef
  refine ⟨⟨?_, ?_, ?_⟩, ?_, ?_, ?_⟩
  · intro h0
    simp [sharpe, hm, h0]
  · intro pv hpv hne m hm'
    simp [sharpe, hm', hpv, hne]
  · have hv := sampleVar_of_two_le hlenf
    have hvol : annualizedVol (al.map Prod.fst)
        = some (Real.sqrt (((al.map Prod.fst).map
            (fun x => (x - (al.map Prod.fst).sum / (al.map Prod.fst).length) ^ 2)).sum
              / (((al.map Prod.fst).length : ℚ) - 1) : ℚ) * Real.sqrt 252) := by
      rw [annualizedVol, hv]
      rfl
    rw [show sharpe (al.map Prod.fst)
        = if (Real.sqrt (((al.map Prod.fst).map
            (fun x => (x - (al.map Prod.fst).sum / (al.map Prod.fst).length) ^ 2)).sum
              / (((al.map Prod.fst).length : ℚ) - 1) : ℚ) * Real.sqrt 252) = 0
          then some 0
          else some ((((al.map Prod.fst).sum / (al.map Prod.fst).length * 252 : ℚ) : ℝ)
            / (Real.sqrt (((al.map Prod.fst).map
                (fun x => (x - (al.map Prod.fst).sum / (al.map Prod.fst).length) ^ 2)).sum
                  / (((al.map Prod.fst).length : ℚ) - 1) : ℚ) * Real.sqrt 252))
      from by simp [sharpe, hm, hvol]]
    split <;> rfl
  · intro h0
    simp [betaOf, h0]
  · intro v hv hne c hc
    simp [betaOf, hv, hne, hc]
  · have hv := sampleVar_of_two_le hlens
    have hc := sampleCov_of_two_le h2
    rw [show betaOf al
        = if (((al.map Prod.snd).map
            (fun x => (x - (al.map Prod.snd).sum / (al.map Prod.snd).length) ^ 2)).sum
              / (((al.map Prod.snd).length : ℚ) - 1)) = 0
          then some 0
          else (sampleCov al).map (fun c => c /
            (((al.map Prod.snd).map
              (fun x => (x - (al.map Prod.snd).sum / (al.map Prod.snd).length) ^ 2)).sum
                / (((al.map Prod.snd).length : ℚ) - 1)))
      from by simp [betaOf, hv]]
    split
    · rfl
    · rw [hc]
      rfl

/-- C5 witness: on a concrete two-row aligned series both the Sharpe ratio
and the beta are defined values, via `c5_sharpe_beta`. -/
theorem c5_sharpe_beta_witness :
    (sharpe ([((1 : ℚ), (2 : ℚ)), ((3 : ℚ), (4 : ℚ))].map Prod.fst)).isSome = true ∧
    (betaOf [((1 : ℚ), (2 : ℚ)), ((3 : ℚ), (4 : ℚ))]).isSome = true :=
  ⟨(c5_sharpe_beta _ (by decide)).1.2.2, (c5_sharpe_beta _ (by decide)).2.2.2⟩

/-! ### C10 — NaN metrics on a short aligned series -/

/-- C10 (confirmed): when the aligned portfolio/benchmark series has fewer
than two observations the sample standard deviation is undefined, so the
annualized volatility is `NaN`; `NaN` passes the `!= 0` guard, so the Sharpe
ratio is `NaN` as well (not the `0` fallback, no typed failure), and the
response's `portfolio_metrics` carries those `NaN`s. -/
theorem c10_nan_metrics (sd : StockData) (spd : List ℕ) (spv : List (Option ℚ))
    (t : List String) (h : (alignedPairs sd spd spv).length < 2) :
    annualizedVol ((alignedPairs sd spd spv).map Prod.fst) = none ∧
    sharpe ((alignedPairs sd spd spv).map Prod.fst) = none ∧
    (buildResponse sd spd spv t).metrics.sharpeRatio = RVal.nan ∧
    (buildResponse sd spd spv t).metrics.annualizedVolVal = RVal.nan := by
  have hlen : ((alignedPairs sd spd spv).map Prod.fst).length < 2 := by simpa using h
  have hv : sampleVar ((alignedPairs sd spd spv).map Prod.fst) = none := by
    rw [sampleVar, if_pos hlen]
  have hvol : annualizedVol ((alignedPairs sd spd spv).map Prod.fst) = none := by
    rw [annualizedVol, hv]
    rfl
  have hsh : sharpe ((alignedPairs sd spd spv).map Prod.fst) = none := by
    cases hms : seriesMean ((alignedPairs sd spd spv).map Prod.fst) <;>
      simp [sharpe, hms, hvol]
  exact ⟨hvol, hsh, by simp [buildResponse, hsh, toRVal],
    by simp [buildResponse, hvol, toRVal]⟩

/-- C10 witness: with an empty benchmark table the aligned series is empty,
and the response's Sharpe ratio and annualized volatility are both `NaN`,
via `c10_nan_metrics`. -/
theorem c10_nan_metrics_witness :
    (buildResponse sdGrow [] [] ["A", "B"]).metrics.sharpeRatio = RVal.nan ∧
    (buildResponse sdGrow [] [] ["A", "B"]).metrics.annualizedVolVal = RVal.nan :=
  ⟨(c10_nan_metrics sdGrow [] [] ["A", "B"]
      (by rw [alignedPairs_empty_bench]; decide)).2.2.1,
   (c10_nan_metrics sdGrow [] [] ["A", "B"]
      (by rw [alignedPairs_empty_bench]; decide)).2.2.2⟩

end PortfolioApp

namespace PortfolioApp

/-! ### Helper lemmas for the correlation matrix -/

theorem buildResponse_corr (sd : StockData) (spd : List ℕ) (spv : List (Option ℚ))
    (t : List String) (s u : String) :
    (buildResponse sd spd spv t).corr s u
      = toRVal ((pearson (pairComplete (sd.col s) (sd.col u))).map (roundR 3)) := rfl

theorem buildResponse_volatility (sd : StockData) (spd : List ℕ) (spv : List (Option ℚ))
    (t : List String) (s : String) :
    (buildResponse sd spd spv t).volatility s
      = toRVal ((annualizedVol (validObs (retCol sd s))).map (roundR 4)) := rfl

theorem buildResponse_symbols (sd : StockData) (spd : List ℕ) (spv : List (Option ℚ))
    (t : List String) :
    (buildResponse sd spd spv t).symbols = sd.symbols := rfl

theorem pearson_eq_none_iff (ps : List (ℚ × ℚ)) :
    pearson ps = none ↔ (ssd (ps.map Prod.fst) = 0 ∨ ssd (ps.map Prod.snd) = 0) := by
  rw [pearson]
  split <;> simp_all

theorem ssd_of_const {l : List ℚ} {c : ℚ} (h : ∀ x ∈ l, x = c) : ssd l = 0 := by
  rcases eq_or_ne l [] with rfl | hne
  · simp [ssd]
  · have hlen : (l.length : ℚ) ≠ 0 := by
      simpa using hne
    have hsum : l.sum = (l.length : ℚ) * c := by
      rw [List.sum_eq_card_nsmul l c h, nsmul_eq_mul]
    have hmean : l.sum / l.length = c := by
      rw [hsum, mul_comm, mul_div_assoc, div_self hlen, mul_one]
    rw [ssd]
    apply List.sum_eq_zero
    intro y hy
    rcases List.mem_map.mp hy with ⟨x, hx, rfl⟩
    rw [h x hx, hmean]
    simp

theorem pairComplete_mem {xs ys : List (Option ℚ)} {p : ℚ × ℚ}
    (h : p ∈ pairComplete xs ys) : some p.1 ∈ xs ∧ some p.2 ∈ ys := by
  rw [pairComplete] at h
  rcases List.mem_filterMap.mp h with ⟨q, hq, hmatch⟩
  rcases q with ⟨_ | a, _ | b⟩ <;> simp_all
  rcases hmatch with ⟨rfl, rfl⟩
  exact List.of_mem_zip hq

theorem pearson_const_fst {xs ys : List (Option ℚ)} {n : ℕ} {c : ℚ}
    (hxs : xs = List.replicate n (some c)) : pearson (pairComplete xs ys) = none := by
  rw [pearson_eq_none_iff]
  left
  apply ssd_of_const (c := c)
  intro x hx
  rcases List.mem_map.mp hx with ⟨p, hp, rfl⟩
  have hm := (pairComplete_mem hp).1
  rw [hxs] at hm
  exact Option.some_inj.mp (List.eq_of_mem_replicate hm)

theorem pearson_const_snd {xs ys : List (Option ℚ)} {n : ℕ} {c : ℚ}
    (hys : ys = List.replicate n (some c)) : pearson (pairComplete xs ys) = none := by
  rw [pearson_eq_none_iff]
  right
  apply ssd_of_const (c := c)
  intro x hx
  rcases List.mem_map.mp hx with ⟨p, hp, rfl⟩
  have hm := (pairComplete_mem hp).2
  rw [hys] at hm
  exact Option.some_inj.mp (List.eq_of_mem_replicate hm)

theorem pctChangeGo_replicate (c : ℚ) (hc : c ≠ 0) (k : ℕ) :
    pctChangeGo (some c) (List.replicate k (some c)) = List.replicate k (some 0) := by
  induction k with
  | zero => rfl
  | succ m ih =>
    simp [List.replicate_succ, pctChangeGo, pctStep, hc, ih, div_self hc]

theorem pctChange_replicate (c : ℚ) (hc : c ≠ 0) {n : ℕ} (hn : 1 ≤ n) :
    pctChange (List.replicate n (some c)) = none :: List.replicate (n - 1) (some 0) := by
  cases n with
  | zero => omega
  | succ k => simp [List.replicate_succ, pctChange, pctChangeGo_replicate c hc k]

theorem validObs_cons_some (q : ℚ) (l : List (Option ℚ)) :
    validObs (some q :: l) = q :: validObs l := by
  simp [validObs]

theorem validObs_replicate_some (q : ℚ) (k : ℕ) :
    validObs (List.replicate k (some q)) = List.replicate k q := by
  induction k with
  | zero => rfl
  | succ m ih =>
    rw [List.replicate_succ, List.replicate_succ, validObs_cons_some, ih]

theorem sampleVar_replicate_zero {k : ℕ} (h : 2 ≤ k) :
    sampleVar (List.replicate k (0 : ℚ)) = some 0 := by
  rw [sampleVar_of_two_le (by simpa using h)]
  simp [List.map_replicate, List.sum_replicate]

theorem roundR_zero (k : ℕ) : roundR k 0 = 0 := by
  simp [roundR]

/-! ### C7 — constant-price symbol -/

/-- C7 (amended): a symbol with a constant nonzero price over at least THREE
rows (so that at least two valid return observations exist — with only two
rows the sample std has one observation and the volatility is `NaN`, not
`0`) has reported annualized volatility exactly `0`; its correlation with
every other symbol (either side) is the `NaN` produced by the zero-variance
price column, and that `NaN` is propagated into the response under the
symbol's key — it is not excluded and not `null`. -/
theorem c7_constant_price (sd : StockData) (spd : List ℕ) (spv : List (Option ℚ))
    (t : List String) (s other : String) (n : ℕ) (c : ℚ)
    (hcol : sd.col s = List.replicate n (some c)) (hc : c ≠ 0) (hn : 3 ≤ n) :
    (buildResponse sd spd spv t).volatility s = RVal.num 0 ∧
    (buildResponse sd spd spv t).corr s other = RVal.nan ∧
    (buildResponse sd spd spv t).corr other s = RVal.nan := by
  refine ⟨?_, ?_, ?_⟩
  · rw [buildResponse_volatility]
    have hret : retCol sd s = none :: List.replicate (n - 1) (some 0) := by
      rw [retCol, hcol, pctChange_replicate c hc (by omega)]
    have hval : validObs (retCol sd s) = List.replicate (n - 1) (0 : ℚ) := by
      rw [hret, validObs_cons_none, validObs_replicate_some]
    have hvar : sampleVar (validObs (retCol sd s)) = some 0 := by
      rw [hval, sampleVar_replicate_zero (by omega)]
    have hvol : annualizedVol (validObs (retCol sd s)) = some 0 := by
      rw [annualizedVol, hvar, Option.map_some']
      norm_num
    rw [hvol, Option.map_some', roundR_zero]
    rfl
  · rw [buildResponse_corr, pearson_const_fst hcol]
    rfl
  · rw [buildResponse_corr, pearson_const_snd hcol]
    rfl

/-- C7 witness: on the concrete table `sdConstA` (constant symbol `A`, three
rows), the reported volatility of `A` is exactly `0` and its correlation
with `B` is the propagated `NaN`, via `c7_constant_price`. -/
theorem c7_constant_price_witness :
    (buildResponse sdConstA [] [] ["A", "B"]).volatility "A" = RVal.num 0 ∧
    (buildResponse sdConstA [] [] ["A", "B"]).corr "A" "B" = RVal.nan :=
  ⟨(c7_constant_price sdConstA [] [] ["A", "B"] "A" "B" 3 2 rfl (by norm_num)
      (by norm_num)).1,
   (c7_constant_price sdConstA [] [] ["A", "B"] "A" "B" 3 2 rfl (by norm_num)
      (by norm_num)).2.1⟩

/-- C7 counterexample: the claim says (a) volatility is exactly 0 already
with 2 observations, and (b) the undefined correlation is excluded or null,
never a propagated `NaN`. Against the code: (a) with a constant price over
two rows the volatility is `NaN`, not `0`; (b) the constant symbol's key is
present in the response and its correlation value IS the `NaN`. -/
theorem c7_counterexample :
    (buildResponse sdConst2 [] [] ["A", "B"]).volatility "A" = RVal.nan ∧
    "A" ∈ (buildResponse sdConstA [] [] ["A", "B"]).symbols ∧
    (buildResponse sdConstA [] [] ["A", "B"]).corr "A" "B" = RVal.nan := by
  refine ⟨?_, ?_, ?_⟩
  · rw [buildResponse_volatility]
    have hret : retCol sdConst2 "A" = none :: List.replicate 1 (some 0) := by
      rw [retCol, show sdConst2.col "A" = List.replicate 2 (some 2) from rfl,
        pctChange_replicate 2 (by norm_num) (by norm_num)]
    have hval : validObs (retCol sdConst2 "A") = [(0 : ℚ)] := by
      rw [hret, validObs_cons_none, validObs_replicate_some]
      rfl
    have hvar : sampleVar (validObs (retCol sdConst2 "A")) = none := by
      rw [hval, sampleVar, if_pos (by norm_num)]
    rw [annualizedVol, hvar]
    rfl
  · rw [buildResponse_symbols]
    decide
  · rw [buildResponse_corr,
      pearson_const_fst (show sdConstA.col "A" = List.replicate 3 (some 2) from rfl)]
    rfl

/-! ### C1 — the correlation matrix is computed on prices, not returns -/

/-- C1 (amended): every entry of the response's correlation matrix is the
pairwise-complete Pearson correlation of the two symbols' PRICE columns
(`stock_data.corr()` is applied to the price table, not to the return
table), rounded to 3 decimal places, with the zero-variance/empty cases
`NaN`. -/
theorem c1_correlation_of_prices (sd : StockData) (spd : List ℕ)
    (spv : List (Option ℚ)) (t : List String) (s u : String) :
    (buildResponse sd spd spv t).corr s u
      = toRVal ((pearson (pairComplete (sd.col s) (sd.col u))).map (roundR 3)) := rfl

/-- C1 counterexample: on the concrete table `sdGrow`, the claimed value —
the Pearson correlation of the RETURN series — is `NaN` (symbol `B`'s
returns are constant), while the response entry is a defined number computed
from the price columns; the two are different, refuting the claim that the
response correlation is the correlation of the daily return series. -/
theorem c1_counterexample :
    (buildResponse sdGrow [] [] ["A", "B"]).corr "A" "B"
      ≠ toRVal ((pearson (pairComplete (retCol sdGrow "A") (retCol sdGrow "B"))).map
          (roundR 3)) := by
  have hRet : pearson (pairComplete (retCol sdGrow "A") (retCol sdGrow "B")) = none := by
    rw [pearson_eq_none_iff]
    right
    have hA : retCol sdGrow "A" = [none, some 1, some (1 / 2)] := by
      rw [retCol, show sdGrow.col "A" = [some 1, some 2, some 3] from rfl]
      norm_num [pctChange, pctChangeGo, pctStep]
    have hB : retCol sdGrow "B" = [none, some 1, some 1] := by
      rw [retCol, show sdGrow.col "B" = [some 1, some 2, some 4] from rfl]
      norm_num [pctChange, pctChangeGo, pctStep]
    rw [hA, hB]
    norm_num [pairComplete, ssd, List.zip_cons_cons, List.filterMap_cons,
      List.filterMap_nil, List.map_cons, List.map_nil, List.sum_cons, List.sum_nil]
  have hPrice : ¬ pearson (pairComplete (sdGrow.col "A") (sdGrow.col "B")) = none := by
    rw [pearson_eq_none_iff,
      show sdGrow.col "A" = [some 1, some 2, some 3] from rfl,
      show sdGrow.col "B" = [some 1, some 2, some 4] from rfl]
    norm_num [pairComplete, ssd, List.zip_cons_cons, List.filterMap_cons,
      List.filterMap_nil, List.map_cons, List.map_nil, List.sum_cons, List.sum_nil]
  rw [buildResponse_corr, hRet]
  rcases hx : pearson (pairComplete (sdGrow.col "A") (sdGrow.col "B")) with _ | y
  · exact absurd hx hPrice
  · simp [toRVal]

end PortfolioApp

namespace PortfolioApp

/-! ### Helper lemmas for the drawdown computation -/

theorem foldl_min_le_init (xs : List ℚ) : ∀ x : ℚ, xs.foldl min x ≤ x := by
  induction xs with
  | nil => intro x; exact le_refl x
  | cons y ys ih =>
    intro x
    calc List.foldl min x (y :: ys) = List.foldl min (min x y) ys := rfl
      _ ≤ min x y := ih (min x y)
      _ ≤ x := min_le_left x y

theorem foldl_min_le_mem (xs : List ℚ) : ∀ x b : ℚ, b ∈ xs → xs.foldl min x ≤ b := by
  induction xs with
  | nil => intro x b hb; cases hb
  | cons y ys ih =>
    intro x b hb
    rcases List.mem_cons.mp hb with rfl | hb'
    · calc List.foldl min x (b :: ys) = List.foldl min (min x b) ys := rfl
        _ ≤ min x b := foldl_min_le_init ys (min x b)
        _ ≤ b := min_le_right x b
    · exact ih (min x y) b hb'

theorem foldl_min_mem_or (xs : List ℚ) :
    ∀ x : ℚ, xs.foldl min x = x ∨ xs.foldl min x ∈ xs := by
  induction xs with
  | nil => intro x; exact Or.inl rfl
  | cons y ys ih =>
    intro x
    have hstep : List.foldl min x (y :: ys) = List.foldl min (min x y) ys := rfl
    rcases ih (min x y) with h | h
    · rcases min_choice x y with hm | hm
      · left
        rw [hstep, h, hm]
      · right
        rw [hstep, h, hm]
        exact List.mem_cons_self y ys
    · right
      rw [hstep]
      exact List.mem_cons_of_mem y h

theorem nondecrB_cons_cumGo (a c : ℚ) (rs : List ℚ) :
    nondecrB (a :: cumGo c rs) = (decide (a ≤ c) && nondecrB (cumGo c rs)) := by
  cases rs <;> rfl

theorem ddGo_ne_nil (c m : ℚ) (rs : List ℚ) : ddGo c m rs ≠ [] := by
  cases rs <;> simp [ddGo]

theorem ddGo_mem_nonpos (rs : List ℚ) : ∀ c m : ℚ, 0 < c → c ≤ m →
    (∀ r ∈ rs, -1 < r) → ∀ x ∈ ddGo c m rs, ∃ d : ℚ, x = some d ∧ d ≤ 0 := by
  induction rs with
  | nil =>
    intro c m hc hcm _ x hx
    have hm : 0 < m := lt_of_lt_of_le hc hcm
    simp only [ddGo, List.mem_singleton] at hx
    rw [if_neg hm.ne'] at hx
    exact ⟨(c - m) / m, hx, div_nonpos_of_nonpos_of_nonneg (by linarith) hm.le⟩
  | cons r rest ih =>
    intro c m hc hcm hr x hx
    have hm : 0 < m := lt_of_lt_of_le hc hcm
    rw [ddGo] at hx
    rcases List.mem_cons.mp hx with rfl | hx'
    · rw [if_neg hm.ne']
      exact ⟨(c - m) / m, rfl, div_nonpos_of_nonpos_of_nonneg (by linarith) hm.le⟩
    · have hr0 : -1 < r := hr r (List.mem_cons_self _ _)
      exact ih (c * (1 + r)) (max m (c * (1 + r))) (mul_pos hc (by linarith))
        (le_max_right _ _) (fun a ha => hr a (List.mem_cons_of_mem _ ha)) x hx'

theorem ddGo_all_zero_iff (rs : List ℚ) : ∀ c m : ℚ, 0 < c → c ≤ m →
    (∀ r ∈ rs, -1 < r) →
    ((∀ x ∈ ddGo c m rs, x = some 0) ↔ (c = m ∧ nondecrB (cumGo c rs) = true)) := by
  induction rs with
  | nil =>
    intro c m hc hcm _
    have hm : 0 < m := lt_of_lt_of_le hc hcm
    constructor
    · intro h
      have h0 := h _ (by rw [ddGo]; exact List.mem_singleton_self _)
      rw [if_neg hm.ne'] at h0
      have hdz : (c - m) / m = 0 := Option.some_inj.mp h0
      have := (div_eq_zero_iff.mp hdz).resolve_right hm.ne'
      exact ⟨by linarith, by rw [cumGo]; rfl⟩
    · rintro ⟨rfl, _⟩ x hx
      simp only [ddGo, List.mem_singleton] at hx
      rw [if_neg hm.ne'] at hx
      rw [hx]
      norm_num
  | cons r rest ih =>
    intro c m hc hcm hr
    have hm : 0 < m := lt_of_lt_of_le hc hcm
    have hr0 : -1 < r := hr r (List.mem_cons_self _ _)
    have hc' : 0 < c * (1 + r) := mul_pos hc (by linarith)
    have ihs := ih (c * (1 + r)) (max m (c * (1 + r))) hc' (le_max_right _ _)
      (fun a ha => hr a (List.mem_cons_of_mem _ ha))
    rw [show cumGo c (r :: rest) = c :: cumGo (c * (1 + r)) rest from rfl,
      nondecrB_cons_cumGo]
    constructor
    · intro h
      have hhead := h _ (by rw [ddGo]; exact List.mem_cons_self _ _)
      rw [if_neg hm.ne'] at hhead
      have hdz : (c - m) / m = 0 := Option.some_inj.mp hhead
      have hceq : c = m := by
        have := (div_eq_zero_iff.mp hdz).resolve_right hm.ne'
        linarith
      have htail : ∀ x ∈ ddGo (c * (1 + r)) (max m (c * (1 + r))) rest, x = some 0 := by
        intro x hx
        exact h x (by rw [ddGo]; exact List.mem_cons_of_mem _ hx)
      rcases ihs.mp htail with ⟨hmaxeq, hnd⟩
      have hle : c ≤ c * (1 + r) := by
        have : m ≤ max m (c * (1 + r)) := le_max_left _ _
        rw [← hmaxeq] at this
        exact hceq ▸ this
      refine ⟨hceq, ?_⟩
      rw [hnd, Bool.and_true]
      exact decide_eq_true hle
    · rintro ⟨rfl, hb⟩
      rcases Bool.and_eq_true_iff.mp hb with ⟨hdec, hnd⟩
      have hcc' : c ≤ c * (1 + r) := of_decide_eq_true hdec
      have hmax : max c (c * (1 + r)) = c * (1 + r) := max_eq_right hcc'
      have htail := ihs.mpr ⟨hmax.symm, hnd⟩
      intro x hx
      rw [ddGo] at hx
      rcases List.mem_cons.mp hx with rfl | hx'
      · rw [if_neg hm.ne']
        norm_num
      · exact htail x hx'

/-! ### C6 — maximum drawdown -/

/-- C6 (amended): for every NONEMPTY aligned portfolio return series all of
whose returns exceed `-1` (as is the case for returns derived from positive
prices, where the cumulative-growth series stays positive), the maximum
drawdown computed by the `cumprod`/`cummax`/`min` recipe is a defined value,
is `≤ 0`, and equals `0` exactly when the cumulative-growth series is
non-decreasing throughout. (For series with a return `≤ -1` the running
maximum can be zero or negative and both the definedness and the
iff direction fail, see the counterexample.) -/
theorem c6_max_drawdown (rs : List ℚ) (hne : rs ≠ []) (hr : ∀ r ∈ rs, -1 < r) :
    ∃ d : ℚ, maxDrawdown rs = some d ∧ d ≤ 0 ∧
      (d = 0 ↔ nondecrB (cumSeries rs) = true) := by
  match rs, hne with
  | r :: rest, _ =>
    have hr0 : -1 < r := hr r (List.mem_cons_self _ _)
    have hc : 0 < 1 + r := by linarith
    have hrtail : ∀ a ∈ rest, -1 < a := fun a ha => hr a (List.mem_cons_of_mem _ ha)
    have hmem := ddGo_mem_nonpos rest (1 + r) (1 + r) hc le_rfl hrtail
    have hiff := ddGo_all_zero_iff rest (1 + r) (1 + r) hc le_rfl hrtail
    have hddsne : ddGo (1 + r) (1 + r) rest ≠ [] := ddGo_ne_nil _ _ _
    obtain ⟨x0, hx0⟩ := List.exists_mem_of_ne_nil _ hddsne
    rcases hmem x0 hx0 with ⟨d0, rfl, hd0le⟩
    have hd0v : d0 ∈ validObs (ddGo (1 + r) (1 + r) rest) := mem_validObs.mpr hx0
    rcases hvo : validObs (ddGo (1 + r) (1 + r) rest) with _ | ⟨v, vs⟩
    · rw [hvo] at hd0v
      cases hd0v
    · have hmdd : maxDrawdown (r :: rest) = some (vs.foldl min v) := by
        rw [maxDrawdown, show drawdowns (r :: rest) = ddGo (1 + r) (1 + r) rest from rfl,
          hvo]
        rfl
      have hvnonpos : ∀ b ∈ validObs (ddGo (1 + r) (1 + r) rest), b ≤ 0 := by
        intro b hb
        have hsb := mem_validObs.mp hb
        rcases hmem _ hsb with ⟨d', hd', hle⟩
        rw [Option.some_inj.mp hd']
        exact hle
      have hdmem : vs.foldl min v ∈ validObs (ddGo (1 + r) (1 + r) rest) := by
        rw [hvo]
        rcases foldl_min_mem_or vs v with h | h
        · rw [h]
          exact List.mem_cons_self _ _
        · exact List.mem_cons_of_mem _ h
      have hlb : ∀ b ∈ validObs (ddGo (1 + r) (1 + r) rest), vs.foldl min v ≤ b := by
        rw [hvo]
        intro b hb
        rcases List.mem_cons.mp hb with rfl | hb'
        · exact foldl_min_le_init vs b
        · exact foldl_min_le_mem vs v b hb'
      refine ⟨vs.foldl min v, hmdd, hvnonpos _ hdmem, ?_⟩
      rw [show cumSeries (r :: rest) = cumGo (1 + r) rest from rfl]
      constructor
      · intro hzero
        have hall : ∀ x ∈ ddGo (1 + r) (1 + r) rest, x = some 0 := by
          intro x hx
          rcases hmem x hx with ⟨dx, rfl, hdxle⟩
          have hdxv : dx ∈ validObs (ddGo (1 + r) (1 + r) rest) := mem_validObs.mpr hx
          have h1 : vs.foldl min v ≤ dx := hlb dx hdxv
          rw [hzero] at h1
          rw [le_antisymm hdxle h1]
        exact (hiff.mp hall).2
      · intro hnd
        have hall := hiff.mpr ⟨rfl, hnd⟩
        have : ∀ b ∈ validObs (ddGo (1 + r) (1 + r) rest), b = 0 := by
          intro b hb
          exact Option.some_inj.mp (hall _ (mem_validObs.mp hb))
        exact this _ hdmem

/-- C6 witness: on the concrete series `[1, 0]` (both returns `> -1`), the
maximum drawdown is defined, `≤ 0`, and `0` exactly when the cumulative
series never falls, via `c6_max_drawdown`. -/
theorem c6_max_drawdown_witness :
    ∃ d : ℚ, maxDrawdown [1, 0] = some d ∧ d ≤ 0 ∧
      (d = 0 ↔ nondecrB (cumSeries [1, 0]) = true) :=
  c6_max_drawdown [1, 0] (by decide) (by decide)

/-- C6 counterexample: the claim quantifies over EVERY aligned portfolio
return series; on the series `[-2, 1]` (a `-200%` return makes the
cumulative-growth series negative: `[-1, -2]`) the computed maximum drawdown
is `0` although the cumulative series is strictly decreasing — the claimed
"equals 0 iff non-decreasing" fails. -/
theorem c6_counterexample :
    maxDrawdown [-2, 1] = some 0 ∧ nondecrB (cumSeries [-2, 1]) = false := by
  have hmax : max (-1 : ℚ) (-2) = -1 := max_eq_left (by norm_num)
  constructor
  · have h1 : drawdowns [(-2 : ℚ), 1] = [some 0, some 1] := by
      rw [show drawdowns [(-2 : ℚ), 1] = ddGo (1 + -2) (1 + -2) [1] from rfl]
      norm_num [ddGo, hmax]
    have h3 : validObs [some (0 : ℚ), some 1] = [0, 1] := by
      norm_num [validObs, List.filterMap_cons, List.filterMap_nil]
    rw [maxDrawdown, h1, h3,
      show seriesMin [(0 : ℚ), 1] = some (min 0 1) from rfl,
      min_eq_left (by norm_num : (0 : ℚ) ≤ 1)]
  · have h2 : cumSeries [(-2 : ℚ), 1] = [-1, -2] := by
      rw [show cumSeries [(-2 : ℚ), 1] = cumGo (1 + -2) [1] from rfl]
      norm_num [cumGo]
    rw [h2]
    decide

end PortfolioApp
